import Mathlib

/-!
SectorGateway `sgwtool`: a shallow embedding of `src/sgwtool/cli.py`.

This file models the two configuration codecs (FRR routing, nftables
firewall), the table renderer, and the guarded command runners of the
`sgwtool` CLI, and proves the specification's testable properties about
them.

Python string primitives (`str.strip`, `str.split()`, `str.splitlines`,
`str.startswith`, `in`, `str.ljust`, `str.join`) are modelled on
`List Char` / `String`.  `str.split()` and `str.strip()` use Python's
whitespace set, `str.splitlines` Python's line-boundary set; both sets are
modelled below (`pyIsSpace`, `pyIsLinesep`) covering Python's documented
whitespace / line-boundary characters.

Fallible operations (Python `list[i]` indexing that can raise `IndexError`)
are modelled with `Option`: `none` is an uncaught exception.
-/

/-- Python whitespace characters: the characters `c` with `c.isspace()`
true, which `str.split()` (no argument) and `str.strip()` use. -/
def pyIsSpace (c : Char) : Bool :=
  c == ' ' || c == '\t' || c == '\n' || c == '\r' || c == '\x0b' || c == '\x0c' ||
  c == '\x1c' || c == '\x1d' || c == '\x1e' || c == '\x1f' || c == '\x85' || c == '\xa0' ||
  c == ' ' || (0x2000 ≤ c.toNat && c.toNat ≤ 0x200a) ||
  c == ' ' || c == ' ' || c == ' ' || c == ' ' || c == '　'

/-- Python line-boundary characters recognised by `str.splitlines`
(besides these single characters, the pair `"\r\n"` counts as one break). -/
def pyIsLinesep (c : Char) : Bool :=
  c == '\n' || c == '\r' || c == '\x0b' || c == '\x0c' ||
  c == '\x1c' || c == '\x1d' || c == '\x1e' || c == '\x85' ||
  c == ' ' || c == ' '

/-- Python `str.strip()` on a character list: drop whitespace from both ends. -/
def stripCh (l : List Char) : List Char :=
  ((l.dropWhile pyIsSpace).reverse.dropWhile pyIsSpace).reverse

/-- Python `line.strip()`. -/
def pyStrip (s : String) : String := String.mk (stripCh s.data)

/-- Python `s.startswith(p)`. -/
def pyStartswith (p s : String) : Bool := p.data.isPrefixOf s.data

/-- Python `needle in hay` (substring containment) on character lists. -/
def listIn (n : List Char) : List Char → Bool
  | [] => n.isEmpty
  | c :: cs => n.isPrefixOf (c :: cs) || listIn n cs

/-- Python `needle in hay` for strings. -/
def pyIn (n hay : String) : Bool := listIn n.data hay.data

/-- Worker for `str.split()`: `cur` is the reversed current token. -/
def splitWSAux : List Char → List Char → List (List Char)
  | cur, [] => if cur.isEmpty then [] else [cur.reverse]
  | cur, c :: cs =>
    if pyIsSpace c then
      if cur.isEmpty then splitWSAux [] cs else cur.reverse :: splitWSAux [] cs
    else splitWSAux (c :: cur) cs

/-- Python `s.split()`: maximal runs of non-whitespace characters. -/
def pySplit (s : String) : List String := (splitWSAux [] s.data).map String.mk

/-- Worker for `str.splitlines`: `cur` is the reversed current line.  A
terminator at the very end of the input produces no trailing empty line. -/
def slAux : List Char → List Char → List (List Char)
  | cur, [] => [cur.reverse]
  | cur, [c] => if pyIsLinesep c then [cur.reverse] else [(c :: cur).reverse]
  | cur, c :: d :: rest =>
    if pyIsLinesep c then
      if c == '\r' && d == '\n' then
        cur.reverse :: (if rest.isEmpty then [] else slAux [] rest)
      else
        cur.reverse :: slAux [] (d :: rest)
    else slAux (c :: cur) (d :: rest)

/-- Python `text.splitlines()`. -/
def pySplitlines (s : String) : List String :=
  if s.data.isEmpty then [] else (slAux [] s.data).map String.mk

/-- Python `sep.join(items)`. -/
def pyJoin (sep : String) : List String → String
  | [] => ""
  | [x] => x
  | x :: y :: t => x ++ sep ++ pyJoin sep (y :: t)

/-- Python `cell.ljust(w)`: pad on the right with spaces to width `w`. -/
def pyLjust (s : String) (w : Nat) : String :=
  s ++ String.mk (List.replicate (w - s.length) ' ')

/-! ## FRR codec (`class FRR`) -/

/-- Arguments of the FRR `set` operation (`FrrSetArgs`). -/
structure FrrSetArgs where
  sector_addresses : List String
  backplane_assigned_addr : String
  backplane_gw_ip : String
deriving DecidableEq

/-- The `lines` list built by `FRR.set`. -/
def frrSetLines (args : FrrSetArgs) : List String :=
  ["frr defaults traditional",
   "log syslog warning",
   "ip forwarding",
   "!",
   "interface eth0"]
  ++ args.sector_addresses.map (fun addr => " ip address " ++ addr)
  ++ [" no shutdown",
      "!",
      "interface eth1",
      " ip address " ++ args.backplane_assigned_addr,
      " no shutdown",
      "!",
      "ip route 0.0.0.0/0 " ++ args.backplane_gw_ip,
      "!",
      "end",
      ""]

/-- The text `FRR.set` writes: `"\n".join(lines)`. -/
def frrSetText (args : FrrSetArgs) : String := pyJoin "\n" (frrSetLines args)

/-- The mutable locals of the `FRR.get` parsing loop. -/
structure FrrAcc where
  sector_addresses : List String
  backplane_addr : String
  backplane_gateway : String
  ip_type : String
deriving DecidableEq

/-- Initial state of the `FRR.get` loop. -/
def frrInit : FrrAcc :=
  { sector_addresses := [], backplane_addr := "", backplane_gateway := "", ip_type := "" }

/-- One iteration of the `FRR.get` line loop.  `none` models the
`IndexError` Python raises at `config_line.split()[2]` (or `[-1]`) when
the index does not exist. -/
def frrStep (acc : FrrAcc) (line : String) : Option FrrAcc :=
  let cl := pyStrip line
  let acc1 := if pyStartswith "interface" cl then
      { acc with ip_type := if pyIn "eth0" cl then "sector" else "backplane" }
    else acc
  if pyStartswith "ip address" cl then
    match (pySplit cl).get? 2 with
    | none => none
    | some addr =>
      if acc1.ip_type = "sector" then
        some { acc1 with sector_addresses := acc1.sector_addresses ++ [addr] }
      else
        some { acc1 with backplane_addr := addr, ip_type := "" }
  else if pyStartswith "ip route 0.0.0.0/0" cl then
    match (pySplit cl).getLast? with
    | none => none
    | some gw => some { acc1 with backplane_gateway := gw }
  else
    some acc1

/-- The `FRR.get` loop over a list of lines. -/
def frrScan (acc : FrrAcc) : List String → Option FrrAcc
  | [] => some acc
  | l :: ls =>
    match frrStep acc l with
    | none => none
    | some acc2 => frrScan acc2 ls

/-- The parsing phase of `FRR.get` on the file text. -/
def frrParseText (text : String) : Option FrrAcc := frrScan frrInit (pySplitlines text)

/-- The rows `FRR.get` passes to the table renderer. -/
def frrRows (config : String) (f : FrrAcc) : List (List String) :=
  [["Sector Gateways", pyJoin ", " f.sector_addresses],
   ["Backplane Address", f.backplane_addr],
   ["Backplane Gateway", f.backplane_gateway],
   ["Config Path", config]]

/-! ## NFTables codec (`class NFTables`) -/

/-- Arguments of the nftables `set` operation (`NFTablesSetArgs`). -/
structure NFTablesSetArgs where
  primary_sector_ip : String
  backplane_network : String
deriving DecidableEq

/-- The `lines` list built by `NFTables.set`. -/
def nftSetLines (args : NFTablesSetArgs) : List String :=
  ["table ip nat \x7b",
   "  chain prerouting \x7b",
   "    type nat hook prerouting priority -100;",
   "    iif \"eth1\" ip daddr " ++ args.backplane_network ++ " dnat to " ++ args.primary_sector_ip,
   "    iif \"eth0\" ip daddr " ++ args.backplane_network ++ " drop",
   "  \x7d",
   "",
   "  chain postrouting \x7b",
   "    type nat hook postrouting priority 100;",
   "    oif \"eth1\" masquerade",
   "  \x7d",
   "\x7d",
   ""]

/-- The text `NFTables.set` writes: `"\n".join(lines)`. -/
def nftSetText (args : NFTablesSetArgs) : String := pyJoin "\n" (nftSetLines args)

/-- One iteration of the `NFTables.get` line loop: the pair is
`(prerouting, postrouting)`; last matching line wins. -/
def nftStep (acc : String × String) (line : String) : String × String :=
  let cl := pyStrip line
  if pyStartswith "iif" cl then (cl, acc.2)
  else if pyStartswith "oif" cl then (acc.1, cl)
  else acc

/-- The `NFTables.get` loop over a list of lines, from `("", "")`. -/
def nftScan (ls : List String) : String × String := ls.foldl nftStep ("", "")

/-- The parsing phase of `NFTables.get` on the file text. -/
def nftParseText (text : String) : String × String := nftScan (pySplitlines text)

/-- The rows `NFTables.get` passes to the table renderer. -/
def nftRows (config : String) (p : String × String) : List (List String) :=
  [["Prerouting Rule", p.1], ["Postrouting Rule", p.2], ["Config Path", config]]

/-! ## Table renderer (`__print_table__` / `__format_row__`) -/

/-- The inner loop of the width computation for one row:
`col_widths[i] = max(col_widths[i], len(cell))` for each cell.  `none`
models the `IndexError` raised when a row has more cells than there are
columns. -/
def bump : List Nat → List String → Option (List Nat)
  | ws, [] => some ws
  | [], _ :: _ => none
  | w :: ws, c :: cs => (bump ws cs).map (fun t => max w c.length :: t)

/-- The width computation of `__print_table__` over all rows, starting
from the header lengths. -/
def fitWidths : List Nat → List (List String) → Option (List Nat)
  | ws, [] => some ws
  | ws, r :: rs =>
    match bump ws r with
    | none => none
    | some ws2 => fitWidths ws2 rs

/-- The cell padding of `__format_row__`: `cell.ljust(col_widths[i])` for
each cell; `none` models the `IndexError` when the row is longer than
`col_widths`. -/
def formatCells : List Nat → List String → Option (List String)
  | _, [] => some []
  | [], _ :: _ => none
  | w :: ws, c :: cs => (formatCells ws cs).map (fun t => pyLjust c w :: t)

/-- Model of `__format_row__`: two-space-joined left-justified cells. -/
def format_row (ws : List Nat) (row : List String) : Option String :=
  (formatCells ws row).map (pyJoin "  ")

/-- The separator cell: `"-" * w`. -/
def dashRow (w : Nat) : String := String.mk (List.replicate w '-')

/-- Model of `__print_table__`: the list of printed lines (header, separator, data
rows), or `none` if the width computation or a row format raises. -/
def print_table (headers : List String) (rows : List (List String)) : Option (List String) :=
  match fitWidths (headers.map String.length) rows with
  | none => none
  | some ws =>
    match format_row ws headers, format_row ws (ws.map dashRow), rows.mapM (format_row ws) with
    | some h, some sep, some rs => some (h :: sep :: rs)
    | _, _, _ => none

/-! ## Guards, effects and command runners

`main` constructs the domain handlers (whose `__init__` performs the
root check), then dispatches one action.  An invocation is modelled as a
pure function of the ambient environment (`Env`: effective uid, existing
files, external command exit codes) producing a `Trace` of its observable
effects and an `Outcome`. -/

/-- How an invocation ends: normally, via `sys.exit(1)` from `__die__`,
or with an uncaught Python exception. -/
inductive Outcome
  | ok
  | died (code : Nat)
  | crashed
deriving DecidableEq

/-- Observable effects of one invocation. -/
structure Trace where
  out : List String
  err : List String
  writes : List (String × String)
  mkdirs : List String
  cmds : List (List String)
  outcome : Outcome
deriving DecidableEq

/-- The empty trace of a run that has not yet performed any effect. -/
def emptyTrace : Trace :=
  { out := [], err := [], writes := [], mkdirs := [], cmds := [], outcome := .ok }

/-- Model of `__die__`: print `ERROR: msg` to stderr and exit with code 1. -/
def dieAfter (t : Trace) (msg : String) : Trace :=
  { t with err := t.err ++ ["ERROR: " ++ msg], outcome := .died 1 }

/-- The ambient environment of one invocation. -/
structure Env where
  euid : Nat
  files : List (String × String)
  cmdExit : List String → Nat

/-- Filesystem lookup: the content of `p`, if the file exists. -/
def lookupFile (files : List (String × String)) (p : String) : Option String :=
  (files.find? (fun e => e.1 == p)).map (·.2)

/-- Model of `Path.parent` as a string operation: drop the last `/`-separated
component (only its presence in the `mkdir` trace matters here). -/
def parentDir (p : String) : String :=
  String.mk (((p.data.reverse.dropWhile (fun c => c ≠ '/')).drop 1).reverse)

/-- Actions of the FRR domain handler. -/
inductive FrrAction
  | set (args : FrrSetArgs)
  | get
  | restart

/-- Actions of the NFTables domain handler. -/
inductive NftAction
  | set (args : NFTablesSetArgs)
  | get
  | restart

/-- One `sgwtool frr …` invocation: root check at handler construction,
then the selected operation. -/
def frrRun (env : Env) (config : String) (act : FrrAction) : Trace :=
  if env.euid ≠ 0 then dieAfter emptyTrace "This command must be run as root"
  else
    match act with
    | .set args =>
      { emptyTrace with
        writes := [(config, frrSetText args)],
        out := ["Wrote FRR configuration to " ++ config] }
    | .get =>
      let t := { emptyTrace with mkdirs := [parentDir config] }
      match lookupFile env.files config with
      | none => dieAfter t (config ++ " does not exist")
      | some text =>
        match frrParseText text with
        | none => { t with outcome := .crashed }
        | some f =>
          match print_table ["Field", "Value"] (frrRows config f) with
          | none => { t with outcome := .crashed }
          | some lines => { t with out := lines }
    | .restart =>
      let t := { emptyTrace with mkdirs := [parentDir config] }
      match lookupFile env.files config with
      | none => dieAfter t (config ++ " does not exist")
      | some _ =>
        let cmd := ["systemctl", "restart", "frr"]
        let t2 := { t with cmds := [cmd] }
        if env.cmdExit cmd ≠ 0 then dieAfter t2 ("Command failed: " ++ pyJoin " " cmd)
        else { t2 with out := ["FRR restarted successfully"] }

/-- One `sgwtool nftables …` invocation. -/
def nftRun (env : Env) (config : String) (act : NftAction) : Trace :=
  if env.euid ≠ 0 then dieAfter emptyTrace "This command must be run as root"
  else
    match act with
    | .set args =>
      { emptyTrace with
        writes := [(config, nftSetText args)],
        out := ["Wrote nftables configuration to " ++ config] }
    | .get =>
      let t := { emptyTrace with mkdirs := [parentDir config] }
      match lookupFile env.files config with
      | none => dieAfter t (config ++ " does not exist")
      | some text =>
        match print_table ["Field", "Value"] (nftRows config (nftParseText text)) with
        | none => { t with outcome := .crashed }
        | some lines => { t with out := lines }
    | .restart =>
      let t := { emptyTrace with mkdirs := [parentDir config] }
      match lookupFile env.files config with
      | none => dieAfter t (config ++ " does not exist")
      | some _ =>
        let cmd := ["systemctl", "restart", "nftables"]
        let t2 := { t with cmds := [cmd] }
        if env.cmdExit cmd ≠ 0 then dieAfter t2 ("Command failed: " ++ pyJoin " " cmd)
        else { t2 with out := ["nftables restarted successfully"] }

/-- A string made of non-whitespace characters only (as the CIDR/IPv4
argument strings of the CLI are). -/
def noWS (s : String) : Prop := ∀ c ∈ s.data, pyIsSpace c = false

instance (s : String) : Decidable (noWS s) := by
  unfold noWS; infer_instance

/-- A line on which the `FRR.get` loop body cannot raise: if its stripped
form starts with the address token, the split has an index 2. -/
def goodLine (l : String) : Prop :=
  pyStartswith "ip address" (pyStrip l) = true → 3 ≤ (pySplit (pyStrip l)).length

instance (l : String) : Decidable (goodLine l) := by
  unfold goodLine; infer_instance

/-- Lines whose `FRR.get` scan, started while the open interface block is
sector (`inSector = true`) or not (`false`, covering the backplane block
and the initial state), never rewrites the captured backplane address and
never raises: an address line may occur only while the sector block is
open (elsewhere the loop body overwrites `backplane_addr`), and then must
have an index-2 token; interface lines switch the block as the loop does.
-/
def keepsBackplane : Bool → List String → Bool
  | _, [] => true
  | inSector, l :: ls =>
    if pyStartswith "interface" (pyStrip l) then
      keepsBackplane (pyIn "eth0" (pyStrip l)) ls
    else if pyStartswith "ip address" (pyStrip l) then
      inSector && decide (3 ≤ (pySplit (pyStrip l)).length) && keepsBackplane inSector ls
    else
      keepsBackplane inSector ls

/-! ## Basic facts about the Python string primitives -/

theorem linesep_isSpace (c : Char) (h : pyIsLinesep c = true) : pyIsSpace c = true := by
  simp only [pyIsLinesep, Bool.or_eq_true, beq_iff_eq] at h
  rcases h with (((((((((h | h) | h) | h) | h) | h) | h) | h) | h) | h) <;> subst h <;> decide

theorem noWS_noLinesep {s : String} (h : noWS s) : ∀ c ∈ s.data, pyIsLinesep c = false := by
  intro c hc
  cases hls : pyIsLinesep c with
  | false => rfl
  | true => exact absurd (h c hc) (by simp [linesep_isSpace c hls])

theorem ne_nil_isEmpty_false {α : Type} {l : List α} (h : l ≠ []) : l.isEmpty = false := by
  cases l with
  | nil => exact absurd rfl h
  | cons a t => rfl

theorem dropWhile_sp_append (sp t : List Char) (h : ∀ c ∈ sp, pyIsSpace c = true) :
    (sp ++ t).dropWhile pyIsSpace = t.dropWhile pyIsSpace := by
  induction sp with
  | nil => rfl
  | cons c cs ih =>
    rw [List.cons_append, List.dropWhile_cons, if_pos (h c (List.mem_cons_self c cs))]
    exact ih (fun x hx => h x (List.mem_cons_of_mem c hx))

theorem dropWhile_cons_false (p : Char → Bool) (c : Char) (t : List Char) (h : p c = false) :
    (c :: t).dropWhile p = c :: t := by
  rw [List.dropWhile_cons, if_neg (by simp [h])]

theorem rstrip_eq_self (l : List Char) (h : ∀ x, l.getLast? = some x → pyIsSpace x = false) :
    (l.reverse.dropWhile pyIsSpace).reverse = l := by
  cases hl : l.reverse with
  | nil =>
    have hnil : l = [] := by simpa using hl
    subst hnil; rfl
  | cons x xs =>
    have hx : l.getLast? = some x := by rw [← List.head?_reverse, hl]; rfl
    rw [dropWhile_cons_false _ _ _ (h x hx), ← hl, List.reverse_reverse]

theorem stripCh_spec (sp rest : List Char) (c : Char)
    (hsp : ∀ x ∈ sp, pyIsSpace x = true) (hc : pyIsSpace c = false)
    (hlast : ∀ x, (c :: rest).getLast? = some x → pyIsSpace x = false) :
    stripCh (sp ++ c :: rest) = c :: rest := by
  unfold stripCh
  rw [dropWhile_sp_append sp _ hsp, dropWhile_cons_false _ _ _ hc, rstrip_eq_self _ hlast]

theorem getLast?_append_right {α : Type} (A B : List α) (h : B ≠ []) :
    (A ++ B).getLast? = B.getLast? := by
  rw [List.getLast?_append]
  cases hb : B.getLast? with
  | none => exact absurd (List.getLast?_isSome.mpr h) (by simp [hb])
  | some x => rfl

theorem getLast?_noWS (s : String) (hs : noWS s) :
    ∀ x, s.data.getLast? = some x → pyIsSpace x = false := by
  intro x hx
  exact hs x (List.mem_of_mem_getLast? hx)

theorem isPrefixOf_cons_ex {a : Char} {as l : List Char} (h : (a :: as).isPrefixOf l = true) :
    ∃ t, l = a :: t := by
  cases l with
  | nil => simp [List.isPrefixOf] at h
  | cons b bs =>
    have hab : a = b := by
      simp only [List.isPrefixOf, Bool.and_eq_true, beq_iff_eq] at h
      exact h.1
    exact ⟨bs, by rw [hab]⟩

theorem splitWSAux_nonws (cur : List Char) (c : Char) (cs : List Char) (h : pyIsSpace c = false) :
    splitWSAux cur (c :: cs) = splitWSAux (c :: cur) cs := by
  simp [splitWSAux, h]

theorem splitWSAux_ws (cur : List Char) (c : Char) (cs : List Char) (h : pyIsSpace c = true)
    (h2 : cur.isEmpty = false) :
    splitWSAux cur (c :: cs) = cur.reverse :: splitWSAux [] cs := by
  simp [splitWSAux, h, h2]

theorem splitWSAux_tok (w : List Char) (hw : ∀ c ∈ w, pyIsSpace c = false) (hne : w ≠ []) :
    ∀ cur, splitWSAux cur w = [cur.reverse ++ w] := by
  induction w with
  | nil => exact absurd rfl hne
  | cons c cs ih =>
    intro cur
    rw [splitWSAux_nonws _ _ _ (hw c (List.mem_cons_self c cs))]
    cases cs with
    | nil => simp [splitWSAux]
    | cons d ds =>
      rw [ih (fun x hx => hw x (List.mem_cons_of_mem c hx)) (by simp)]
      simp

theorem splitWSAux_res_ne_nil (l : List Char) : ∀ cur, cur ≠ [] → splitWSAux cur l ≠ [] := by
  induction l with
  | nil => intro cur h; simp [splitWSAux, ne_nil_isEmpty_false h]
  | cons c cs ih =>
    intro cur h
    by_cases hc : pyIsSpace c = true
    · rw [splitWSAux_ws _ _ _ hc (ne_nil_isEmpty_false h)]; simp
    · rw [splitWSAux_nonws _ _ _ (by simpa using hc)]
      exact ih _ (by simp)

theorem pySplit_ne_nil (s : String) (c : Char) (t : List Char)
    (hs : s.data = c :: t) (hc : pyIsSpace c = false) : pySplit s ≠ [] := by
  unfold pySplit
  rw [hs, splitWSAux_nonws _ _ _ hc]
  have hres := splitWSAux_res_ne_nil t [c] (by simp)
  intro hmap
  exact hres (by simpa using hmap)

/-! ## Facts about `splitlines` and `join` -/

theorem slAux_nil (cur : List Char) : slAux cur [] = [cur.reverse] := rfl

theorem slAux_nl (cur rest : List Char) :
    slAux cur ('\n' :: rest) = cur.reverse :: (if rest.isEmpty then [] else slAux [] rest) := by
  cases rest with
  | nil => rfl
  | cons d rs => rfl

theorem slAux_other (cur : List Char) (c : Char) (cs : List Char) (h : pyIsLinesep c = false) :
    slAux cur (c :: cs) = slAux (c :: cur) cs := by
  cases cs with
  | nil => simp [slAux, h]
  | cons d rs => simp [slAux, h]

theorem slAux_chunk (w : List Char) (hw : ∀ c ∈ w, pyIsLinesep c = false) :
    ∀ cur rest, slAux cur (w ++ rest) = slAux (w.reverse ++ cur) rest := by
  induction w with
  | nil => intro cur rest; rfl
  | cons c cs ih =>
    intro cur rest
    rw [List.cons_append, slAux_other _ _ _ (hw c (List.mem_cons_self c cs)),
        ih (fun x hx => hw x (List.mem_cons_of_mem c hx)) (c :: cur) rest]
    simp

theorem pyJoin_cons_blank (sep : String) (x : String) (t : List String) :
    pyJoin sep ((x :: t) ++ [""]) = x ++ sep ++ pyJoin sep (t ++ [""]) := by
  cases t with
  | nil => rfl
  | cons y ys => rfl

theorem data_join_cons_blank (x : String) (t : List String) :
    (pyJoin "\n" ((x :: t) ++ [""])).data
      = x.data ++ '\n' :: (pyJoin "\n" (t ++ [""])).data := by
  rw [pyJoin_cons_blank, String.data_append, String.data_append]
  simp

theorem pySplitlines_join (ls : List String)
    (h : ∀ l ∈ ls, ∀ c ∈ l.data, pyIsLinesep c = false) :
    pySplitlines (pyJoin "\n" (ls ++ [""])) = ls := by
  induction ls with
  | nil => rfl
  | cons l rest ih =>
    have hd := data_join_cons_blank l rest
    have hne : (pyJoin "\n" ((l :: rest) ++ [""])).data ≠ [] := by
      rw [hd]; simp
    unfold pySplitlines
    rw [if_neg (by simpa using hne), hd,
        slAux_chunk l.data (h l (List.mem_cons_self l rest)) [] _,
        List.append_nil, slAux_nl, List.reverse_reverse]
    cases rest with
    | nil => rfl
    | cons r rs =>
      have hne2 : (pyJoin "\n" ((r :: rs) ++ [""])).data ≠ [] := by
        rw [data_join_cons_blank]; simp
      rw [if_neg (by simpa using hne2)]
      have ih2 := ih (fun x hx => h x (List.mem_cons_of_mem l hx))
      unfold pySplitlines at ih2
      rw [if_neg (by simpa using hne2)] at ih2
      simp only [List.map_cons, ih2]

/-! ## FRR step and scan lemmas -/

theorem splitWSAux_word_sp (w : List Char) (hw : ∀ c ∈ w, pyIsSpace c = false) (hne : w ≠ []) :
    ∀ rest cur, splitWSAux cur (w ++ ' ' :: rest) = (cur.reverse ++ w) :: splitWSAux [] rest := by
  induction w with
  | nil => exact absurd rfl hne
  | cons c cs ih =>
    intro rest cur
    rw [List.cons_append, splitWSAux_nonws _ _ _ (hw c (List.mem_cons_self c cs))]
    cases cs with
    | nil =>
      rw [List.nil_append, splitWSAux_ws _ _ _ (by decide) (by simp)]
      simp
    | cons d ds =>
      rw [ih (fun x hx => hw x (List.mem_cons_of_mem c hx)) (by simp) rest (c :: cur)]
      simp

theorem pySplit_addr (a : String) (ha : a.data ≠ []) (hw : noWS a) :
    pySplit (String.mk ('i' :: ("p address ".data ++ a.data))) = ["ip", "address", a] := by
  unfold pySplit
  show (splitWSAux [] ('i' :: ("p address ".data ++ a.data))).map String.mk = _
  have h1 : ('i' :: ("p address ".data ++ a.data))
      = "ip".data ++ ' ' :: ("address".data ++ ' ' :: a.data) := rfl
  rw [h1, splitWSAux_word_sp "ip".data (by decide) (by decide),
      splitWSAux_word_sp "address".data (by decide) (by decide),
      splitWSAux_tok a.data (fun c hc => hw c hc) ha]
  rfl

theorem pyStrip_addr (a : String) (ha : a.data ≠ []) (hw : noWS a) :
    pyStrip (" ip address " ++ a) = String.mk ('i' :: ("p address ".data ++ a.data)) := by
  unfold pyStrip
  have hd : (" ip address " ++ a).data = [' '] ++ 'i' :: ("p address ".data ++ a.data) := by
    rw [String.data_append]; rfl
  rw [hd, stripCh_spec [' '] _ 'i' (by decide) (by decide) ?hlast]
  case hlast =>
    intro x hx
    rw [show ('i' :: ("p address ".data ++ a.data)) = ('i' :: "p address ".data) ++ a.data from by simp] at hx
    rw [getLast?_append_right _ _ ha] at hx
    exact getLast?_noWS a hw x hx

theorem frrStep_addr (acc : FrrAcc) (a : String) (ha : a.data ≠ []) (hw : noWS a) :
    frrStep acc (" ip address " ++ a)
      = some (if acc.ip_type = "sector"
              then { acc with sector_addresses := acc.sector_addresses ++ [a] }
              else { acc with backplane_addr := a, ip_type := "" }) := by
  have hs1 : pyStartswith "interface" (String.mk ('i' :: ("p address ".data ++ a.data))) = false := rfl
  have hs2 : pyStartswith "ip address" (String.mk ('i' :: ("p address ".data ++ a.data))) = true := rfl
  simp only [frrStep, pyStrip_addr a ha hw, hs1, hs2, Bool.false_eq_true, if_false, if_true,
    pySplit_addr a ha hw, List.get?_cons_succ, List.get?_cons_zero]
  split <;> rfl

theorem frrStep_noop1 (acc : FrrAcc) : frrStep acc "frr defaults traditional" = some acc := rfl
theorem frrStep_iface0 (acc : FrrAcc) :
    frrStep acc "interface eth0" = some { acc with ip_type := "sector" } := rfl
theorem frrStep_iface1 (acc : FrrAcc) :
    frrStep acc "interface eth1" = some { acc with ip_type := "backplane" } := rfl

theorem pySplit_route (g : String) (hg : g.data ≠ []) (hw : noWS g) :
    pySplit (String.mk ('i' :: ("p route 0.0.0.0/0 ".data ++ g.data)))
      = ["ip", "route", "0.0.0.0/0", g] := by
  unfold pySplit
  show (splitWSAux [] ('i' :: ("p route 0.0.0.0/0 ".data ++ g.data))).map String.mk = _
  have h1 : ('i' :: ("p route 0.0.0.0/0 ".data ++ g.data))
      = "ip".data ++ ' ' :: ("route".data ++ ' ' :: ("0.0.0.0/0".data ++ ' ' :: g.data)) := rfl
  rw [h1, splitWSAux_word_sp "ip".data (by decide) (by decide),
      splitWSAux_word_sp "route".data (by decide) (by decide),
      splitWSAux_word_sp "0.0.0.0/0".data (by decide) (by decide),
      splitWSAux_tok g.data (fun c hc => hw c hc) hg]
  rfl

theorem pyStrip_route (g : String) (hg : g.data ≠ []) (hw : noWS g) :
    pyStrip ("ip route 0.0.0.0/0 " ++ g)
      = String.mk ('i' :: ("p route 0.0.0.0/0 ".data ++ g.data)) := by
  unfold pyStrip
  have hd : ("ip route 0.0.0.0/0 " ++ g).data
      = [] ++ 'i' :: ("p route 0.0.0.0/0 ".data ++ g.data) := by
    rw [String.data_append]; rfl
  rw [hd, stripCh_spec [] _ 'i' (by decide) (by decide) ?hlast]
  case hlast =>
    intro x hx
    rw [show ('i' :: ("p route 0.0.0.0/0 ".data ++ g.data))
        = ('i' :: "p route 0.0.0.0/0 ".data) ++ g.data from by simp] at hx
    rw [getLast?_append_right _ _ hg] at hx
    exact getLast?_noWS g hw x hx

theorem frrStep_route (acc : FrrAcc) (g : String) (hg : g.data ≠ []) (hw : noWS g) :
    frrStep acc ("ip route 0.0.0.0/0 " ++ g) = some { acc with backplane_gateway := g } := by
  have hs1 : pyStartswith "interface"
      (String.mk ('i' :: ("p route 0.0.0.0/0 ".data ++ g.data))) = false := rfl
  have hs2 : pyStartswith "ip address"
      (String.mk ('i' :: ("p route 0.0.0.0/0 ".data ++ g.data))) = false := rfl
  have hs3 : pyStartswith "ip route 0.0.0.0/0"
      (String.mk ('i' :: ("p route 0.0.0.0/0 ".data ++ g.data))) = true := rfl
  simp only [frrStep, pyStrip_route g hg hw, hs1, hs2, hs3, Bool.false_eq_true, if_false, if_true,
    pySplit_route g hg hw]
  rfl

theorem frrStep_noop2 (acc : FrrAcc) : frrStep acc "log syslog warning" = some acc := rfl
theorem frrStep_noop3 (acc : FrrAcc) : frrStep acc "ip forwarding" = some acc := rfl
theorem frrStep_noop4 (acc : FrrAcc) : frrStep acc "!" = some acc := rfl
theorem frrStep_noop5 (acc : FrrAcc) : frrStep acc " no shutdown" = some acc := rfl
theorem frrStep_noop6 (acc : FrrAcc) : frrStep acc "end" = some acc := rfl
theorem frrStep_noop7 (acc : FrrAcc) : frrStep acc "" = some acc := rfl

theorem frrScan_cons (acc b : FrrAcc) (l : String) (ls : List String)
    (h : frrStep acc l = some b) : frrScan acc (l :: ls) = frrScan b ls := by
  simp [frrScan, h]

theorem frrScan_sector (addrs : List String)
    (h : ∀ a ∈ addrs, a.data ≠ [] ∧ noWS a) :
    ∀ (acc : FrrAcc), acc.ip_type = "sector" → ∀ rest,
      frrScan acc (addrs.map (fun a => " ip address " ++ a) ++ rest)
        = frrScan { acc with sector_addresses := acc.sector_addresses ++ addrs } rest := by
  induction addrs with
  | nil => intro acc hip rest; simp
  | cons a t ih =>
    intro acc hip rest
    obtain ⟨ha, hw⟩ := h a (List.mem_cons_self a t)
    rw [List.map_cons, List.cons_append,
        frrScan_cons _ _ _ _ (by rw [frrStep_addr acc a ha hw, if_pos hip]),
        ih (fun x hx => h x (List.mem_cons_of_mem a hx)) _ (by simpa using hip) rest]
    simp

theorem data_ne_nil (s : String) (h : s ≠ "") : s.data ≠ [] := by
  intro hd
  exact h (String.ext (by simp [hd]))

theorem noLinesep_append (s t : String)
    (hs : ∀ c ∈ s.data, pyIsLinesep c = false) (ht : ∀ c ∈ t.data, pyIsLinesep c = false) :
    ∀ c ∈ (s ++ t).data, pyIsLinesep c = false := by
  intro c hc
  rw [String.data_append] at hc
  rcases List.mem_append.mp hc with h | h
  · exact hs c h
  · exact ht c h

theorem frr_roundtrip_main (args : FrrSetArgs)
    (h2 : ∀ a ∈ args.sector_addresses, a ≠ "" ∧ noWS a)
    (h3 : args.backplane_assigned_addr ≠ "" ∧ noWS args.backplane_assigned_addr)
    (h4 : args.backplane_gw_ip ≠ "" ∧ noWS args.backplane_gw_ip) :
    frrParseText (frrSetText args)
      = some { sector_addresses := args.sector_addresses,
               backplane_addr := args.backplane_assigned_addr,
               backplane_gateway := args.backplane_gw_ip,
               ip_type := "" } := by
  obtain ⟨hb, hbw⟩ := h3
  obtain ⟨hg, hgw⟩ := h4
  have hbd := data_ne_nil _ hb
  have hgd := data_ne_nil _ hg
  have hshape : frrSetLines args
      = (["frr defaults traditional", "log syslog warning", "ip forwarding", "!",
          "interface eth0"]
         ++ args.sector_addresses.map (fun addr => " ip address " ++ addr)
         ++ [" no shutdown", "!", "interface eth1",
             " ip address " ++ args.backplane_assigned_addr,
             " no shutdown", "!",
             "ip route 0.0.0.0/0 " ++ args.backplane_gw_ip,
             "!", "end"]) ++ [""] := by
    simp [frrSetLines]
  have hnl1 : ∀ l ∈ ["frr defaults traditional", "log syslog warning", "ip forwarding", "!",
      "interface eth0"], ∀ c ∈ l.data, pyIsLinesep c = false := by decide
  have hnl : ∀ l ∈ (["frr defaults traditional", "log syslog warning", "ip forwarding", "!",
          "interface eth0"]
         ++ args.sector_addresses.map (fun addr => " ip address " ++ addr)
         ++ [" no shutdown", "!", "interface eth1",
             " ip address " ++ args.backplane_assigned_addr,
             " no shutdown", "!",
             "ip route 0.0.0.0/0 " ++ args.backplane_gw_ip,
             "!", "end"]), ∀ c ∈ l.data, pyIsLinesep c = false := by
    intro l hl
    rcases List.mem_append.mp hl with h12 | hL2
    · rcases List.mem_append.mp h12 with hL1 | hmap
      · exact hnl1 l hL1
      · obtain ⟨a, ha, rfl⟩ := List.mem_map.mp hmap
        exact noLinesep_append _ _ (by decide) (noWS_noLinesep (h2 a ha).2)
    · simp only [List.mem_cons, List.not_mem_nil, or_false] at hL2
      rcases hL2 with rfl | rfl | rfl | rfl | rfl | rfl | rfl | rfl | rfl
      · decide
      · decide
      · decide
      · exact noLinesep_append _ _ (by decide) (noWS_noLinesep hbw)
      · decide
      · decide
      · exact noLinesep_append _ _ (by decide) (noWS_noLinesep hgw)
      · decide
      · decide
  have hlines : pySplitlines (frrSetText args)
      = ["frr defaults traditional", "log syslog warning", "ip forwarding", "!",
          "interface eth0"]
         ++ args.sector_addresses.map (fun addr => " ip address " ++ addr)
         ++ [" no shutdown", "!", "interface eth1",
             " ip address " ++ args.backplane_assigned_addr,
             " no shutdown", "!",
             "ip route 0.0.0.0/0 " ++ args.backplane_gw_ip,
             "!", "end"] := by
    unfold frrSetText
    rw [hshape]
    exact pySplitlines_join _ hnl
  unfold frrParseText
  rw [hlines]
  simp only [List.cons_append, List.nil_append]
  rw [frrScan_cons _ _ _ _ (frrStep_noop1 _), frrScan_cons _ _ _ _ (frrStep_noop2 _),
      frrScan_cons _ _ _ _ (frrStep_noop3 _), frrScan_cons _ _ _ _ (frrStep_noop4 _),
      frrScan_cons _ _ _ _ (frrStep_iface0 _)]
  rw [frrScan_sector args.sector_addresses
        (fun a ha => ⟨data_ne_nil a (h2 a ha).1, (h2 a ha).2⟩) _ rfl]
  show frrScan ⟨args.sector_addresses, "", "", "sector"⟩ _ = _
  rw [frrScan_cons _ _ _ _ (frrStep_noop5 _), frrScan_cons _ _ _ _ (frrStep_noop4 _),
      frrScan_cons _ _ _ _ (frrStep_iface1 _)]
  show frrScan ⟨args.sector_addresses, "", "", "backplane"⟩ _ = _
  rw [frrScan_cons _ _ _ _
        (by rw [frrStep_addr _ _ hbd hbw, if_neg (by simp)])]
  show frrScan ⟨args.sector_addresses, args.backplane_assigned_addr, "", ""⟩ _ = _
  rw [frrScan_cons _ _ _ _ (frrStep_noop5 _), frrScan_cons _ _ _ _ (frrStep_noop4 _),
      frrScan_cons _ _ _ _ (frrStep_route _ _ hgd hgw),
      frrScan_cons _ _ _ _ (frrStep_noop4 _), frrScan_cons _ _ _ _ (frrStep_noop6 _)]
  rfl

/-! ## Totality and backplane-capture lemmas for the FRR scan -/

theorem bool_ne_true {b : Bool} (h : ¬(b = true)) : b = false := by
  cases b
  · rfl
  · exact absurd rfl h

theorem isSome_ite_some {α : Type} (P : Prop) [Decidable P] (a b : α) :
    (if P then some a else some b).isSome = true := by split <;> rfl

theorem frrStep_total (acc : FrrAcc) (l : String) (hgood : goodLine l) :
    (frrStep acc l).isSome = true := by
  by_cases h1 : pyStartswith "ip address" (pyStrip l) = true
  · have hlen := hgood h1
    have hlt : 2 < (pySplit (pyStrip l)).length := by omega
    obtain ⟨addr, haddr⟩ : ∃ x, (pySplit (pyStrip l)).get? 2 = some x :=
      ⟨_, List.get?_eq_get hlt⟩
    simp only [frrStep, h1, if_true, haddr]
    exact isSome_ite_some _ _ _
  · by_cases h2 : pyStartswith "ip route 0.0.0.0/0" (pyStrip l) = true
    · have h2' : ('i' :: "p route 0.0.0.0/0".data).isPrefixOf (pyStrip l).data = true := h2
      obtain ⟨t, ht⟩ := isPrefixOf_cons_ex h2'
      have hne := pySplit_ne_nil (pyStrip l) 'i' t ht (by decide)
      obtain ⟨g, hg⟩ := Option.isSome_iff_exists.mp (List.getLast?_isSome.mpr hne)
      simp only [frrStep, bool_ne_true h1, Bool.false_eq_true, if_false, h2, if_true, hg]
      rfl
    · simp only [frrStep, bool_ne_true h1, bool_ne_true h2, Bool.false_eq_true, if_false]
      rfl

theorem frrScan_total (ls : List String) :
    ∀ acc, (∀ l ∈ ls, goodLine l) → (frrScan acc ls).isSome = true := by
  induction ls with
  | nil => intro acc h; rfl
  | cons l t ih =>
    intro acc h
    obtain ⟨b, hb⟩ :=
      Option.isSome_iff_exists.mp (frrStep_total acc l (h l (List.mem_cons_self l t)))
    rw [frrScan_cons _ _ _ _ hb]
    exact ih b (fun x hx => h x (List.mem_cons_of_mem l hx))

theorem frrStep_some_backplane (acc b : FrrAcc) (l : String)
    (h : pyStartswith "ip address" (pyStrip l) = false)
    (hb : frrStep acc l = some b) : b.backplane_addr = acc.backplane_addr := by
  revert hb
  simp only [frrStep, h, Bool.false_eq_true, if_false]
  by_cases h2 : pyStartswith "ip route 0.0.0.0/0" (pyStrip l) = true
  · simp only [h2, if_true]
    cases hLast : (pySplit (pyStrip l)).getLast? with
    | none => intro hb; cases hb
    | some g =>
      intro hb
      cases hb
      split <;> rfl
  · simp only [bool_ne_true h2, Bool.false_eq_true, if_false]
    intro hb
    cases hb
    split <;> rfl

theorem frrStep_keeps_backplane (acc : FrrAcc) (l : String)
    (h : pyStartswith "ip address" (pyStrip l) = false) :
    ∃ b, frrStep acc l = some b ∧ b.backplane_addr = acc.backplane_addr := by
  have hgl : goodLine l := fun hc => absurd hc (by simp [h])
  obtain ⟨b, hb⟩ := Option.isSome_iff_exists.mp (frrStep_total acc l hgl)
  exact ⟨b, hb, frrStep_some_backplane acc b l h hb⟩

theorem frrScan_keeps_backplane (ls : List String)
    (h : ∀ l ∈ ls, pyStartswith "ip address" (pyStrip l) = false) :
    ∀ acc, ∃ b, frrScan acc ls = some b ∧ b.backplane_addr = acc.backplane_addr := by
  induction ls with
  | nil => intro acc; exact ⟨acc, rfl, rfl⟩
  | cons l t ih =>
    intro acc
    obtain ⟨b, hb, hbp⟩ := frrStep_keeps_backplane acc l (h l (List.mem_cons_self l t))
    obtain ⟨f, hf, hfp⟩ := ih (fun x hx => h x (List.mem_cons_of_mem l hx)) b
    exact ⟨f, by rw [frrScan_cons _ _ _ _ hb]; exact hf, by rw [hfp, hbp]⟩

theorem frrScan_backplane_block (addrs : List String)
    (hgood : ∀ a ∈ addrs, a.data ≠ [] ∧ noWS a) (hne : addrs ≠ []) :
    ∀ (acc : FrrAcc), acc.ip_type ≠ "sector" → ∀ rest,
      ∃ b, addrs.getLast? = some b ∧
        frrScan acc (addrs.map (fun a => " ip address " ++ a) ++ rest)
          = frrScan { acc with backplane_addr := b, ip_type := "" } rest := by
  induction addrs with
  | nil => exact absurd rfl hne
  | cons a t ih =>
    intro acc hip rest
    obtain ⟨ha, hw⟩ := hgood a (List.mem_cons_self a t)
    cases t with
    | nil =>
      refine ⟨a, rfl, ?_⟩
      rw [List.map_cons, List.map_nil, List.cons_append, List.nil_append,
          frrScan_cons _ _ _ _ (by rw [frrStep_addr acc a ha hw, if_neg hip])]
    | cons x xs =>
      obtain ⟨b, hb, hsc⟩ := ih (fun y hy => hgood y (List.mem_cons_of_mem a hy)) (by simp)
        { acc with backplane_addr := a, ip_type := "" } (by simp) rest
      refine ⟨b, by rw [List.getLast?_cons_cons]; exact hb, ?_⟩
      rw [List.map_cons, List.cons_append,
          frrScan_cons _ _ _ _ (by rw [frrStep_addr acc a ha hw, if_neg hip]), hsc]

theorem frrScan_append (xs ys : List String) :
    ∀ acc, frrScan acc (xs ++ ys) = (frrScan acc xs).bind (fun b => frrScan b ys) := by
  induction xs with
  | nil => intro acc; rfl
  | cons l t ih =>
    intro acc
    rw [List.cons_append]
    cases hstep : frrStep acc l with
    | none => simp [frrScan, hstep]
    | some b => rw [frrScan_cons _ _ _ _ hstep, frrScan_cons _ _ _ _ hstep, ih b]

/-! ## Block-tracking lemmas for lines that never rewrite the backplane capture -/

theorem isPrefixOf_cons2_ex {a b : Char} {as l : List Char}
    (h : (a :: b :: as).isPrefixOf l = true) : ∃ t, l = a :: b :: t := by
  obtain ⟨t, ht⟩ := isPrefixOf_cons_ex h
  subst ht
  have h2 : (b :: as).isPrefixOf t = true := by
    simp only [List.isPrefixOf, Bool.and_eq_true] at h
    exact h.2
  obtain ⟨t2, ht2⟩ := isPrefixOf_cons_ex h2
  exact ⟨t2, by rw [ht2]⟩

theorem iface_excl (cl : String) (h : pyStartswith "interface" cl = true) :
    pyStartswith "ip address" cl = false ∧ pyStartswith "ip route 0.0.0.0/0" cl = false := by
  have h' : ('i' :: 'n' :: "terface".data).isPrefixOf cl.data = true := h
  obtain ⟨t, ht⟩ := isPrefixOf_cons2_ex h'
  constructor
  · show ("ip address".data).isPrefixOf cl.data = false
    rw [ht]; rfl
  · show ("ip route 0.0.0.0/0".data).isPrefixOf cl.data = false
    rw [ht]; rfl

theorem addr_excl (cl : String) (h : pyStartswith "ip address" cl = true) :
    pyStartswith "interface" cl = false := by
  have h' : ('i' :: 'p' :: " address".data).isPrefixOf cl.data = true := h
  obtain ⟨t, ht⟩ := isPrefixOf_cons2_ex h'
  show ("interface".data).isPrefixOf cl.data = false
  rw [ht]; rfl

theorem frrStep_iface_any (acc : FrrAcc) (l : String)
    (h : pyStartswith "interface" (pyStrip l) = true) :
    frrStep acc l = some { acc with
      ip_type := if pyIn "eth0" (pyStrip l) = true then "sector" else "backplane" } := by
  obtain ⟨hA, hR⟩ := iface_excl _ h
  simp only [frrStep, h, if_true, hA, hR, Bool.false_eq_true, if_false]

theorem frrStep_addr_sector (acc : FrrAcc) (l : String)
    (h : pyStartswith "ip address" (pyStrip l) = true)
    (hlen : 3 ≤ (pySplit (pyStrip l)).length)
    (hip : acc.ip_type = "sector") :
    ∃ x, frrStep acc l
      = some { acc with sector_addresses := acc.sector_addresses ++ [x] } := by
  have hI := addr_excl _ h
  have hlt : 2 < (pySplit (pyStrip l)).length := by omega
  refine ⟨(pySplit (pyStrip l)).get ⟨2, hlt⟩, ?_⟩
  simp only [frrStep, hI, Bool.false_eq_true, if_false, h, if_true,
    List.get?_eq_get hlt, hip, if_pos]

theorem frrStep_other (acc : FrrAcc) (l : String)
    (h1 : pyStartswith "interface" (pyStrip l) = false)
    (h2 : pyStartswith "ip address" (pyStrip l) = false) :
    ∃ b, frrStep acc l = some b
      ∧ b.backplane_addr = acc.backplane_addr ∧ b.ip_type = acc.ip_type := by
  by_cases hR : pyStartswith "ip route 0.0.0.0/0" (pyStrip l) = true
  · have hR' : ('i' :: "p route 0.0.0.0/0".data).isPrefixOf (pyStrip l).data = true := hR
    obtain ⟨t, ht⟩ := isPrefixOf_cons_ex hR'
    have hne := pySplit_ne_nil (pyStrip l) 'i' t ht (by decide)
    obtain ⟨g, hg⟩ := Option.isSome_iff_exists.mp (List.getLast?_isSome.mpr hne)
    refine ⟨{ acc with backplane_gateway := g },
      by simp only [frrStep, h1, h2, Bool.false_eq_true, if_false, hR, if_true, hg], rfl, rfl⟩
  · refine ⟨acc, ?_, rfl, rfl⟩
    simp only [frrStep, h1, h2, bool_ne_true hR, Bool.false_eq_true, if_false]

theorem frrScan_keepsB (ls : List String) :
    ∀ (inSector : Bool), keepsBackplane inSector ls = true →
      ∀ acc : FrrAcc, (acc.ip_type = "sector" ↔ inSector = true) →
        ∃ f, frrScan acc ls = some f ∧ f.backplane_addr = acc.backplane_addr := by
  induction ls with
  | nil => intro inSector _ acc _; exact ⟨acc, rfl, rfl⟩
  | cons l t ih =>
    intro inSector hkb acc hiff
    by_cases hI : pyStartswith "interface" (pyStrip l) = true
    · rw [show keepsBackplane inSector (l :: t)
            = keepsBackplane (pyIn "eth0" (pyStrip l)) t from by
          simp [keepsBackplane, hI]] at hkb
      obtain ⟨f, hf, hfp⟩ := ih (pyIn "eth0" (pyStrip l)) hkb
        { acc with ip_type := if pyIn "eth0" (pyStrip l) = true then "sector" else "backplane" }
        (by cases hE : pyIn "eth0" (pyStrip l) <;> simp [hE])
      exact ⟨f, by rw [frrScan_cons _ _ _ _ (frrStep_iface_any acc l hI)]; exact hf, hfp⟩
    · by_cases hA : pyStartswith "ip address" (pyStrip l) = true
      · rw [show keepsBackplane inSector (l :: t)
              = (inSector && decide (3 ≤ (pySplit (pyStrip l)).length)
                  && keepsBackplane inSector t) from by
            simp only [keepsBackplane, bool_ne_true hI, Bool.false_eq_true, if_false, hA, if_true]] at hkb
        simp only [Bool.and_eq_true, decide_eq_true_eq] at hkb
        obtain ⟨⟨hsec, hlen⟩, hkb2⟩ := hkb
        obtain ⟨x, hstep⟩ := frrStep_addr_sector acc l hA hlen (hiff.mpr hsec)
        obtain ⟨f, hf, hfp⟩ := ih inSector hkb2
          { acc with sector_addresses := acc.sector_addresses ++ [x] }
          (by simpa using hiff)
        exact ⟨f, by rw [frrScan_cons _ _ _ _ hstep]; exact hf, hfp⟩
      · rw [show keepsBackplane inSector (l :: t) = keepsBackplane inSector t from by
            simp only [keepsBackplane, bool_ne_true hI, bool_ne_true hA,
              Bool.false_eq_true, if_false]] at hkb
        obtain ⟨b, hstep, hbp, hit⟩ := frrStep_other acc l (bool_ne_true hI) (bool_ne_true hA)
        obtain ⟨f, hf, hfp⟩ := ih inSector hkb b (by rw [hit]; exact hiff)
        exact ⟨f, by rw [frrScan_cons _ _ _ _ hstep]; exact hf, by rw [hfp, hbp]⟩

/-! ## NFTables codec lemmas -/

theorem isPrefixOf_append_self (n y : List Char) : n.isPrefixOf (n ++ y) = true := by
  induction n with
  | nil => cases y <;> rfl
  | cons c cs ih => simp [List.isPrefixOf, ih]

theorem listIn_append_self (n x y : List Char) : listIn n (x ++ (n ++ y)) = true := by
  induction x with
  | nil =>
    cases n with
    | nil => cases y <;> simp [listIn]
    | cons c cs => simp [listIn, isPrefixOf_append_self]
  | cons a t ih => simp [listIn, ih]

theorem nft_n1 (acc : String × String) : nftStep acc "table ip nat \x7b" = acc := rfl
theorem nft_n2 (acc : String × String) : nftStep acc "  chain prerouting \x7b" = acc := rfl
theorem nft_n3 (acc : String × String) :
    nftStep acc "    type nat hook prerouting priority -100;" = acc := rfl
theorem nft_n6 (acc : String × String) : nftStep acc "  \x7d" = acc := rfl
theorem nft_n7 (acc : String × String) : nftStep acc "" = acc := rfl
theorem nft_n8 (acc : String × String) : nftStep acc "  chain postrouting \x7b" = acc := rfl
theorem nft_n9 (acc : String × String) :
    nftStep acc "    type nat hook postrouting priority 100;" = acc := rfl
theorem nft_n10 (acc : String × String) :
    nftStep acc "    oif \"eth1\" masquerade" = (acc.1, "oif \"eth1\" masquerade") := rfl
theorem nft_n11 (acc : String × String) : nftStep acc "\x7d" = acc := rfl

theorem pyStrip_dnat (bn ip : String) (hip : ip.data ≠ []) (hw : noWS ip) :
    pyStrip ("    iif \"eth1\" ip daddr " ++ bn ++ " dnat to " ++ ip)
      = String.mk ('i' :: ("if \"eth1\" ip daddr ".data
          ++ (bn.data ++ (" dnat to ".data ++ ip.data)))) := by
  unfold pyStrip
  have hdata : ("    iif \"eth1\" ip daddr " ++ bn ++ " dnat to " ++ ip).data
      = "    ".data ++ 'i' :: ("if \"eth1\" ip daddr ".data
          ++ (bn.data ++ (" dnat to ".data ++ ip.data))) := by
    simp only [String.data_append, List.append_assoc]
    rfl
  rw [hdata, stripCh_spec "    ".data _ 'i' (by decide) (by decide) ?hl]
  case hl =>
    intro x hx
    rw [show ('i' :: ("if \"eth1\" ip daddr ".data
          ++ (bn.data ++ (" dnat to ".data ++ ip.data))))
        = ((('i' :: "if \"eth1\" ip daddr ".data) ++ bn.data) ++ " dnat to ".data) ++ ip.data
      from by simp] at hx
    rw [getLast?_append_right _ _ hip] at hx
    exact getLast?_noWS ip hw x hx

theorem nftStep_dnat (acc : String × String) (bn ip : String)
    (hip : ip.data ≠ []) (hw : noWS ip) :
    nftStep acc ("    iif \"eth1\" ip daddr " ++ bn ++ " dnat to " ++ ip)
      = (String.mk ('i' :: ("if \"eth1\" ip daddr ".data
          ++ (bn.data ++ (" dnat to ".data ++ ip.data)))), acc.2) := by
  have hs : pyStartswith "iif" (String.mk ('i' :: ("if \"eth1\" ip daddr ".data
      ++ (bn.data ++ (" dnat to ".data ++ ip.data))))) = true := rfl
  simp only [nftStep, pyStrip_dnat bn ip hip hw, hs, if_true]

theorem pyStrip_drop (bn : String) :
    pyStrip ("    iif \"eth0\" ip daddr " ++ bn ++ " drop")
      = String.mk ('i' :: ("if \"eth0\" ip daddr ".data ++ (bn.data ++ " drop".data))) := by
  unfold pyStrip
  have hdata : ("    iif \"eth0\" ip daddr " ++ bn ++ " drop").data
      = "    ".data ++ 'i' :: ("if \"eth0\" ip daddr ".data ++ (bn.data ++ " drop".data)) := by
    simp only [String.data_append, List.append_assoc]
    rfl
  rw [hdata, stripCh_spec "    ".data _ 'i' (by decide) (by decide) ?hl]
  case hl =>
    intro x hx
    rw [show ('i' :: ("if \"eth0\" ip daddr ".data ++ (bn.data ++ " drop".data)))
        = (('i' :: "if \"eth0\" ip daddr ".data) ++ bn.data) ++ " drop".data
      from by simp] at hx
    rw [getLast?_append_right _ _ (by decide)] at hx
    have : x = 'p' := by
      rw [show (" drop".data.getLast? : Option Char) = some 'p' from rfl] at hx
      exact (Option.some.injEq _ _ ▸ hx).symm
    subst this
    decide

theorem nftStep_drop (acc : String × String) (bn : String) :
    nftStep acc ("    iif \"eth0\" ip daddr " ++ bn ++ " drop")
      = (String.mk ('i' :: ("if \"eth0\" ip daddr ".data ++ (bn.data ++ " drop".data))), acc.2) := by
  have hs : pyStartswith "iif" (String.mk ('i' :: ("if \"eth0\" ip daddr ".data
      ++ (bn.data ++ " drop".data)))) = true := rfl
  simp only [nftStep, pyStrip_drop bn, hs, if_true]

theorem nft_parse_render_main (args : NFTablesSetArgs)
    (hp : args.primary_sector_ip ≠ "" ∧ noWS args.primary_sector_ip)
    (hb : args.backplane_network ≠ "" ∧ noWS args.backplane_network) :
    nftParseText (nftSetText args)
      = ("iif \"eth0\" ip daddr " ++ args.backplane_network ++ " drop",
         "oif \"eth1\" masquerade") := by
  obtain ⟨hpe, hpw⟩ := hp
  obtain ⟨hbe, hbw⟩ := hb
  have hpd := data_ne_nil _ hpe
  have hshape : nftSetLines args
      = (["table ip nat \x7b",
          "  chain prerouting \x7b",
          "    type nat hook prerouting priority -100;",
          "    iif \"eth1\" ip daddr " ++ args.backplane_network ++ " dnat to "
            ++ args.primary_sector_ip,
          "    iif \"eth0\" ip daddr " ++ args.backplane_network ++ " drop",
          "  \x7d",
          "",
          "  chain postrouting \x7b",
          "    type nat hook postrouting priority 100;",
          "    oif \"eth1\" masquerade",
          "  \x7d",
          "\x7d"]) ++ [""] := by
    simp [nftSetLines]
  have hnl : ∀ l ∈ (["table ip nat \x7b",
          "  chain prerouting \x7b",
          "    type nat hook prerouting priority -100;",
          "    iif \"eth1\" ip daddr " ++ args.backplane_network ++ " dnat to "
            ++ args.primary_sector_ip,
          "    iif \"eth0\" ip daddr " ++ args.backplane_network ++ " drop",
          "  \x7d",
          "",
          "  chain postrouting \x7b",
          "    type nat hook postrouting priority 100;",
          "    oif \"eth1\" masquerade",
          "  \x7d",
          "\x7d"]), ∀ c ∈ l.data, pyIsLinesep c = false := by
    intro l hl
    simp only [List.mem_cons, List.not_mem_nil, or_false] at hl
    rcases hl with rfl | rfl | rfl | rfl | rfl | rfl | rfl | rfl | rfl | rfl | rfl | rfl
    · decide
    · decide
    · decide
    · exact noLinesep_append _ _
        (noLinesep_append _ _
          (noLinesep_append _ _ (by decide) (noWS_noLinesep hbw)) (by decide))
        (noWS_noLinesep hpw)
    · exact noLinesep_append _ _
        (noLinesep_append _ _ (by decide) (noWS_noLinesep hbw)) (by decide)
    · decide
    · decide
    · decide
    · decide
    · decide
    · decide
    · decide
  have hlines : pySplitlines (nftSetText args)
      = ["table ip nat \x7b",
          "  chain prerouting \x7b",
          "    type nat hook prerouting priority -100;",
          "    iif \"eth1\" ip daddr " ++ args.backplane_network ++ " dnat to "
            ++ args.primary_sector_ip,
          "    iif \"eth0\" ip daddr " ++ args.backplane_network ++ " drop",
          "  \x7d",
          "",
          "  chain postrouting \x7b",
          "    type nat hook postrouting priority 100;",
          "    oif \"eth1\" masquerade",
          "  \x7d",
          "\x7d"] := by
    unfold nftSetText
    rw [hshape]
    exact pySplitlines_join _ hnl
  unfold nftParseText nftScan
  rw [hlines]
  rw [List.foldl_cons, nft_n1, List.foldl_cons, nft_n2, List.foldl_cons, nft_n3,
      List.foldl_cons, nftStep_dnat _ _ _ hpd hpw,
      List.foldl_cons, nftStep_drop,
      List.foldl_cons, nft_n6, List.foldl_cons, nft_n7, List.foldl_cons, nft_n8,
      List.foldl_cons, nft_n9, List.foldl_cons, nft_n10, List.foldl_cons, nft_n6,
      List.foldl_cons, nft_n11, List.foldl_nil]
  refine Prod.ext ?_ rfl
  show String.mk ('i' :: ("if \"eth0\" ip daddr ".data
      ++ (args.backplane_network.data ++ " drop".data)))
    = "iif \"eth0\" ip daddr " ++ args.backplane_network ++ " drop"
  refine String.ext ?_
  simp only [String.data_append, List.append_assoc]
  rfl

/-- C1 amended -/
theorem nft_roundtrip_amended (args : NFTablesSetArgs)
    (hp : args.primary_sector_ip ≠ "" ∧ noWS args.primary_sector_ip)
    (hb : args.backplane_network ≠ "" ∧ noWS args.backplane_network) :
    (nftParseText (nftSetText args)).1
        = "iif \"eth0\" ip daddr " ++ args.backplane_network ++ " drop"
    ∧ pyIn args.backplane_network (nftParseText (nftSetText args)).1 = true
    ∧ (nftParseText (nftSetText args)).2 = "oif \"eth1\" masquerade"
    ∧ (nftParseText (nftSetText args)).2 ≠ ""
    ∧ pyIn "masquerade" (nftParseText (nftSetText args)).2 = true := by
  have h := nft_parse_render_main args hp hb
  refine ⟨by rw [h], ?_, by rw [h],
    by rw [h]; show ("oif \"eth1\" masquerade" : String) ≠ ""; decide,
    by rw [h]; show pyIn "masquerade" "oif \"eth1\" masquerade" = true; decide⟩
  rw [h]
  show listIn args.backplane_network.data
      ("iif \"eth0\" ip daddr " ++ args.backplane_network ++ " drop").data = true
  have hd : ("iif \"eth0\" ip daddr " ++ args.backplane_network ++ " drop").data
      = "iif \"eth0\" ip daddr ".data ++ (args.backplane_network.data ++ " drop".data) := by
    simp [String.data_append]
  rw [hd]
  exact listIn_append_self _ _ _

/-- C1 counterexample -/
theorem nft_roundtrip_refuted :
    ("10.1.1.1" : String) ≠ "" ∧ ("192.168.1.0/24" : String) ≠ ""
    ∧ pyIn "10.1.1.1" (nftParseText (nftSetText
        { primary_sector_ip := "10.1.1.1", backplane_network := "192.168.1.0/24" })).1 = false := by
  decide

/-- C1 witness -/
theorem nft_roundtrip_amended_witness :
    (nftParseText (nftSetText
        { primary_sector_ip := "10.1.1.1", backplane_network := "192.168.1.0/24" })).1
        = "iif \"eth0\" ip daddr " ++ "192.168.1.0/24" ++ " drop"
    ∧ pyIn "192.168.1.0/24" (nftParseText (nftSetText
        { primary_sector_ip := "10.1.1.1", backplane_network := "192.168.1.0/24" })).1 = true
    ∧ (nftParseText (nftSetText
        { primary_sector_ip := "10.1.1.1", backplane_network := "192.168.1.0/24" })).2
        = "oif \"eth1\" masquerade"
    ∧ (nftParseText (nftSetText
        { primary_sector_ip := "10.1.1.1", backplane_network := "192.168.1.0/24" })).2 ≠ ""
    ∧ pyIn "masquerade" (nftParseText (nftSetText
        { primary_sector_ip := "10.1.1.1", backplane_network := "192.168.1.0/24" })).2 = true :=
  nft_roundtrip_amended
    { primary_sector_ip := "10.1.1.1", backplane_network := "192.168.1.0/24" }
    (by decide) (by decide)

/-! ## Claim theorems for the routing codec -/

/-- C2: for every `RoutingParams` with a non-empty list of whitespace-free
non-empty sector addresses and whitespace-free non-empty backplane
address/gateway fields, parsing the rendered FRR configuration recovers
exactly the original `sector_addresses` (order and count), the original
`backplane_assigned_addr`, and the original `backplane_gw_ip`. -/
theorem frr_roundtrip (args : FrrSetArgs)
    (h1 : args.sector_addresses ≠ [])
    (h2 : ∀ a ∈ args.sector_addresses, a ≠ "" ∧ noWS a)
    (h3 : args.backplane_assigned_addr ≠ "" ∧ noWS args.backplane_assigned_addr)
    (h4 : args.backplane_gw_ip ≠ "" ∧ noWS args.backplane_gw_ip) :
    frrParseText (frrSetText args)
      = some { sector_addresses := args.sector_addresses,
               backplane_addr := args.backplane_assigned_addr,
               backplane_gateway := args.backplane_gw_ip,
               ip_type := "" } :=
  frr_roundtrip_main args h2 h3 h4

/-- Witness for C2 at concrete CLI-style arguments. -/
theorem frr_roundtrip_witness :
    (["10.1.1.1/24", "10.1.2.1/24"] : List String) ≠ [] ∧
    frrParseText (frrSetText
        { sector_addresses := ["10.1.1.1/24", "10.1.2.1/24"],
          backplane_assigned_addr := "192.168.1.100/24",
          backplane_gw_ip := "192.168.1.1" })
      = some { sector_addresses := ["10.1.1.1/24", "10.1.2.1/24"],
               backplane_addr := "192.168.1.100/24",
               backplane_gateway := "192.168.1.1",
               ip_type := "" } :=
  ⟨by decide,
   frr_roundtrip
     { sector_addresses := ["10.1.1.1/24", "10.1.2.1/24"],
       backplane_assigned_addr := "192.168.1.100/24",
       backplane_gw_ip := "192.168.1.1" }
     (by decide) (by decide) (by decide) (by decide)⟩

/-- C3 counterexample: on the one-line text `"ip address"` the `FRR.get`
line loop raises `IndexError` at `config_line.split()[2]` (modelled as
`none`), so parsing does not terminate normally on every input. -/
theorem frr_parse_crash : frrParseText "ip address" = none := by decide

/-- C3 amended: the `FRR.get` parsing loop terminates normally on every
text in which each stripped line starting with the address token has at
least three whitespace-separated tokens; on such inputs malformed lines
at worst yield empty or partial fields. -/
theorem frr_parse_total (t : String) (h : ∀ l ∈ pySplitlines t, goodLine l) :
    (frrParseText t).isSome = true :=
  frrScan_total (pySplitlines t) frrInit h

/-- Witness for C3 (amended) on a concrete malformed-but-safe text. -/
theorem frr_parse_total_witness :
    (∀ l ∈ pySplitlines "interface eth0\n!", goodLine l) ∧
    (frrParseText "interface eth0\n!").isSome = true :=
  ⟨by decide, frr_parse_total "interface eth0\n!" (by decide)⟩

/-- C4 amended: when the backplane interface block contains one or more
address lines, `FRR.get` reports the value of the *last* such address
line (each address line seen while the state is not `"sector"` overwrites
the captured value).  The lines after the block may be anything that does
not re-capture: in particular a subsequent sector interface block with
its own address lines is allowed. -/
theorem frr_backplane_last (gpre post addrs : List String)
    (hg : ∀ l ∈ gpre, goodLine l)
    (hne : addrs ≠ [])
    (ha : ∀ a ∈ addrs, a ≠ "" ∧ noWS a)
    (hp : keepsBackplane false post = true) :
    ∃ f, frrScan frrInit
        (gpre ++ "interface eth1" :: (addrs.map (fun a => " ip address " ++ a) ++ post))
        = some f ∧ some f.backplane_addr = addrs.getLast? := by
  obtain ⟨acc0, hacc0⟩ := Option.isSome_iff_exists.mp (frrScan_total gpre frrInit hg)
  obtain ⟨b, hb, hblock⟩ := frrScan_backplane_block addrs
      (fun a hA => ⟨data_ne_nil a (ha a hA).1, (ha a hA).2⟩) hne
      { acc0 with ip_type := "backplane" } (by simp) post
  obtain ⟨f, hf, hfp⟩ := frrScan_keepsB post false hp
      { acc0 with backplane_addr := b, ip_type := "" } (by simp)
  refine ⟨f, ?_, ?_⟩
  · rw [frrScan_append, hacc0]
    show frrScan acc0 ("interface eth1" :: _) = some f
    rw [frrScan_cons _ _ _ _ (frrStep_iface1 _), hblock]
    exact hf
  · rw [hfp, hb]

/-- C4 counterexample: with two address lines in the backplane block the
parser reports the second (last) one, not the first. -/
theorem frr_backplane_first_refuted :
    (frrParseText "interface eth1\n ip address 10.0.0.1/24\n ip address 10.0.0.2/24").map
        (fun f => f.backplane_addr) = some "10.0.0.2/24"
    ∧ (frrParseText "interface eth1\n ip address 10.0.0.1/24\n ip address 10.0.0.2/24").map
        (fun f => f.backplane_addr) ≠ some "10.0.0.1/24" := by decide

/-- Witness for C4 (amended): a two-address backplane block followed by a
sector block containing its own address line. -/
theorem frr_backplane_last_witness :
    ∃ f, frrScan frrInit
        ([] ++ "interface eth1" ::
          ((["10.9.0.1/24", "10.9.0.2/24"].map (fun a => " ip address " ++ a))
            ++ ["!", "interface eth0", " ip address 10.9.9.9/24"]))
        = some f ∧ some f.backplane_addr = (["10.9.0.1/24", "10.9.0.2/24"] : List String).getLast? :=
  frr_backplane_last [] ["!", "interface eth0", " ip address 10.9.9.9/24"]
    ["10.9.0.1/24", "10.9.0.2/24"] (by decide) (by decide) (by decide) (by decide)

/-! ## Table renderer lemmas -/

theorem bump_spec (r : List String) :
    ∀ ws : List Nat, r.length ≤ ws.length →
      ∃ ws2, bump ws r = some ws2 ∧ ws2.length = ws.length ∧
        (∀ i, i < ws.length → ws2.getD i 0 = max (ws.getD i 0) ((r.getD i "").length)) := by
  induction r with
  | nil =>
    intro ws h
    exact ⟨ws, by cases ws <;> rfl, rfl, fun i hi => by simp⟩
  | cons c cs ih =>
    intro ws h
    cases ws with
    | nil => simp at h
    | cons w wt =>
      obtain ⟨ws2, h1, h2, h3⟩ := ih wt (by simpa using h)
      refine ⟨max w c.length :: ws2, by simp [bump, h1], by simp [h2], fun i hi => ?_⟩
      cases i with
      | zero => simp
      | succ j => simpa using h3 j (by simpa using hi)

theorem fitWidths_spec (rows : List (List String)) :
    ∀ ws0 : List Nat, (∀ r ∈ rows, r.length ≤ ws0.length) →
      ∃ ws, fitWidths ws0 rows = some ws ∧ ws.length = ws0.length ∧
        ∀ i, i < ws0.length →
          ws.getD i 0 = max (ws0.getD i 0)
            (((rows.map (fun r => (r.getD i "").length)).foldr max 0)) := by
  induction rows with
  | nil =>
    intro ws0 h
    exact ⟨ws0, by cases ws0 <;> rfl, rfl, fun i hi => by simp⟩
  | cons r rs ih =>
    intro ws0 h
    obtain ⟨ws1, hb, hlen1, hpt1⟩ := bump_spec r ws0 (h r (List.mem_cons_self r rs))
    obtain ⟨ws, hf, hlen, hpt⟩ := ih ws1
      (fun x hx => hlen1 ▸ h x (List.mem_cons_of_mem r hx))
    refine ⟨ws, by simp only [fitWidths, hb]; exact hf, hlen.trans hlen1, fun i hi => ?_⟩
    rw [hpt i (by rw [hlen1]; exact hi), hpt1 i hi]
    simp only [List.map_cons, List.foldr_cons]
    rw [Nat.max_assoc]

theorem formatCells_eq (r : List String) :
    ∀ ws : List Nat, r.length ≤ ws.length →
      formatCells ws r = some (List.zipWith pyLjust r ws) := by
  induction r with
  | nil => intro ws h; cases ws <;> rfl
  | cons c cs ih =>
    intro ws h
    cases ws with
    | nil => simp at h
    | cons w wt => simp [formatCells, ih wt (by simpa using h)]

theorem format_row_eq (ws : List Nat) (r : List String) (h : r.length ≤ ws.length) :
    format_row ws r = some (pyJoin "  " (List.zipWith pyLjust r ws)) := by
  simp [format_row, formatCells_eq r ws h]

theorem append_empty_str (s : String) : s ++ String.mk [] = s :=
  String.ext (by simp [String.data_append])

theorem pyLjust_exact (s : String) (h : s.length = w) : pyLjust s w = s := by
  unfold pyLjust
  rw [h, Nat.sub_self]
  exact append_empty_str s

theorem dashRow_length (w : Nat) : (dashRow w).length = w := by
  simp [dashRow, String.length]

theorem zipWith_dash (ws : List Nat) :
    List.zipWith pyLjust (ws.map dashRow) ws = ws.map dashRow := by
  induction ws with
  | nil => rfl
  | cons w wt ih => simp [pyLjust_exact _ (dashRow_length w), ih]

theorem mapM_format (ws : List Nat) (rows : List (List String))
    (h : ∀ r ∈ rows, r.length ≤ ws.length) :
    rows.mapM (format_row ws)
      = some (rows.map (fun r => pyJoin "  " (List.zipWith pyLjust r ws))) := by
  induction rows with
  | nil => rfl
  | cons r rs ih =>
    rw [List.mapM_cons, format_row_eq ws r (h r (List.mem_cons_self r rs)),
        ih (fun x hx => h x (List.mem_cons_of_mem r hx))]
    rfl

theorem getD_map_length (headers : List String) :
    ∀ i, i < headers.length →
      (headers.map String.length).getD i 0 = (headers.getD i "").length := by
  induction headers with
  | nil => intro i hi; simp at hi
  | cons x t ih =>
    intro i hi
    cases i with
    | zero => simp
    | succ j => simpa using ih j (by simpa using hi)

/-- C8 -/
theorem print_table_spec (headers : List String) (rows : List (List String))
    (h : ∀ r ∈ rows, r.length = headers.length) :
    ∃ ws, fitWidths (headers.map String.length) rows = some ws
      ∧ ws.length = headers.length
      ∧ (∀ i, i < headers.length →
          ws.getD i 0 = max ((headers.getD i "").length)
            (((rows.map (fun r => (r.getD i "").length)).foldr max 0)))
      ∧ print_table headers rows
          = some (pyJoin "  " (List.zipWith pyLjust headers ws)
                  :: pyJoin "  " (ws.map dashRow)
                  :: rows.map (fun r => pyJoin "  " (List.zipWith pyLjust r ws))) := by
  have hle : ∀ r ∈ rows, r.length ≤ (headers.map String.length).length := by
    intro r hr
    rw [List.length_map]
    exact Nat.le_of_eq (h r hr)
  obtain ⟨ws, hf, hlen, hpt⟩ := fitWidths_spec rows (headers.map String.length) hle
  rw [List.length_map] at hlen
  refine ⟨ws, hf, hlen, ?_, ?_⟩
  · intro i hi
    rw [hpt i (by rw [List.length_map]; exact hi), getD_map_length headers i hi]
  · unfold print_table
    rw [hf]
    show (match format_row ws headers, format_row ws (ws.map dashRow),
            rows.mapM (format_row ws) with
          | some h, some sep, some rs => some (h :: sep :: rs)
          | _, _, _ => none) = _
    rw [format_row_eq ws headers (by rw [hlen]),
        format_row_eq ws (ws.map dashRow) (by rw [List.length_map]),
        mapM_format ws rows (fun r hr => by rw [h r hr, hlen]),
        zipWith_dash]

/-- witness C8 -/
theorem print_table_spec_witness :
    (∀ r ∈ [["Sector Gateways", "10.1.1.1/24, 10.1.2.1/24"],
            ["Backplane Address", "192.168.1.100/24"]],
      r.length = (["Field", "Value"] : List String).length) ∧
    ∃ ws, fitWidths ((["Field", "Value"] : List String).map String.length)
            [["Sector Gateways", "10.1.1.1/24, 10.1.2.1/24"],
             ["Backplane Address", "192.168.1.100/24"]] = some ws
      ∧ ws.length = (["Field", "Value"] : List String).length
      ∧ (∀ i, i < (["Field", "Value"] : List String).length →
          ws.getD i 0 = max (((["Field", "Value"] : List String).getD i "").length)
            ((([["Sector Gateways", "10.1.1.1/24, 10.1.2.1/24"],
                ["Backplane Address", "192.168.1.100/24"]].map
                  (fun r => (r.getD i "").length))).foldr max 0))
      ∧ print_table ["Field", "Value"]
            [["Sector Gateways", "10.1.1.1/24, 10.1.2.1/24"],
             ["Backplane Address", "192.168.1.100/24"]]
          = some (pyJoin "  " (List.zipWith pyLjust ["Field", "Value"] ws)
                  :: pyJoin "  " (ws.map dashRow)
                  :: [["Sector Gateways", "10.1.1.1/24, 10.1.2.1/24"],
                      ["Backplane Address", "192.168.1.100/24"]].map
                        (fun r => pyJoin "  " (List.zipWith pyLjust r ws))) :=
  ⟨by decide,
   print_table_spec ["Field", "Value"]
     [["Sector Gateways", "10.1.1.1/24, 10.1.2.1/24"],
      ["Backplane Address", "192.168.1.100/24"]] (by decide)⟩

/-- C10 -/
theorem print_table_total_iff :
    (∀ (headers : List String) (rows : List (List String)),
        (∀ r ∈ rows, r.length ≤ headers.length) → (print_table headers rows).isSome = true)
    ∧ print_table ["h"] [["a", "b"]] = none := by
  constructor
  · intro headers rows h
    have hle : ∀ r ∈ rows, r.length ≤ (headers.map String.length).length := by
      intro r hr
      rw [List.length_map]
      exact h r hr
    obtain ⟨ws, hf, hlen, _⟩ := fitWidths_spec rows (headers.map String.length) hle
    rw [List.length_map] at hlen
    unfold print_table
    rw [hf]
    show ((match format_row ws headers, format_row ws (ws.map dashRow),
            rows.mapM (format_row ws) with
          | some h, some sep, some rs => some (h :: sep :: rs)
          | _, _, _ => none)).isSome = true
    rw [format_row_eq ws headers (by rw [hlen]),
        format_row_eq ws (ws.map dashRow) (by rw [List.length_map]),
        mapM_format ws rows (fun r hr => by rw [hlen]; exact h r hr)]
    rfl
  · decide

/-- witness C10 -/
theorem print_table_total_iff_witness :
    (print_table ["x", "y"] [["a"], ["b", "c"]]).isSome = true
    ∧ print_table ["h"] [["a", "b"]] = none :=
  ⟨print_table_total_iff.1 ["x", "y"] [["a"], ["b", "c"]] (by decide),
   print_table_total_iff.2⟩

/-! ## Guard and runner claim theorems -/

/-- C5 -/
theorem root_guard (env : Env) (config : String) (h : env.euid ≠ 0) :
    (∀ act : FrrAction,
      (frrRun env config act).outcome = .died 1
      ∧ (frrRun env config act).err = ["ERROR: This command must be run as root"]
      ∧ (frrRun env config act).writes = []
      ∧ (frrRun env config act).mkdirs = []
      ∧ (frrRun env config act).cmds = [])
    ∧ (∀ act : NftAction,
      (nftRun env config act).outcome = .died 1
      ∧ (nftRun env config act).err = ["ERROR: This command must be run as root"]
      ∧ (nftRun env config act).writes = []
      ∧ (nftRun env config act).mkdirs = []
      ∧ (nftRun env config act).cmds = []) := by
  constructor <;> intro act <;>
    simp [frrRun, nftRun, h, dieAfter, emptyTrace]

/-- witness C5 -/
theorem root_guard_witness :
    ((1000 : Nat) ≠ 0) ∧
    (frrRun ⟨1000, [], fun _ => 0⟩ "/etc/frr/frr.conf" .get).outcome = Outcome.died 1
    ∧ (frrRun ⟨1000, [], fun _ => 0⟩ "/etc/frr/frr.conf" .get).writes = [] :=
  ⟨by decide,
   ((root_guard ⟨1000, [], fun _ => 0⟩ "/etc/frr/frr.conf" (by decide)).1 .get).1,
   ((root_guard ⟨1000, [], fun _ => 0⟩ "/etc/frr/frr.conf" (by decide)).1 .get).2.2.1⟩

/-- C6 -/
theorem missing_file_guard (env : Env) (cf cn : String)
    (hroot : env.euid = 0)
    (hf : lookupFile env.files cf = none)
    (hn : lookupFile env.files cn = none) :
    ((frrRun env cf .get).outcome = .died 1
      ∧ (frrRun env cf .get).err = ["ERROR: " ++ (cf ++ " does not exist")]
      ∧ (frrRun env cf .get).cmds = [])
    ∧ ((frrRun env cf .restart).outcome = .died 1
      ∧ (frrRun env cf .restart).err = ["ERROR: " ++ (cf ++ " does not exist")]
      ∧ (frrRun env cf .restart).cmds = [])
    ∧ ((nftRun env cn .get).outcome = .died 1
      ∧ (nftRun env cn .get).err = ["ERROR: " ++ (cn ++ " does not exist")]
      ∧ (nftRun env cn .get).cmds = [])
    ∧ ((nftRun env cn .restart).outcome = .died 1
      ∧ (nftRun env cn .restart).err = ["ERROR: " ++ (cn ++ " does not exist")]
      ∧ (nftRun env cn .restart).cmds = []) := by
  refine ⟨⟨?_, ?_, ?_⟩, ⟨?_, ?_, ?_⟩, ⟨?_, ?_, ?_⟩, ⟨?_, ?_, ?_⟩⟩ <;>
    simp [frrRun, nftRun, hroot, hf, hn, dieAfter, emptyTrace]

/-- witness C6 -/
theorem missing_file_guard_witness :
    ((0 : Nat) = 0) ∧
    (frrRun ⟨0, [], fun _ => 0⟩ "/etc/frr/frr.conf" .restart).outcome = Outcome.died 1
    ∧ (frrRun ⟨0, [], fun _ => 0⟩ "/etc/frr/frr.conf" .restart).cmds = [] :=
  ⟨rfl,
   (missing_file_guard ⟨0, [], fun _ => 0⟩
      "/etc/frr/frr.conf" "/etc/nftables.conf" rfl rfl rfl).2.1.1,
   (missing_file_guard ⟨0, [], fun _ => 0⟩
      "/etc/frr/frr.conf" "/etc/nftables.conf" rfl rfl rfl).2.1.2.2⟩

/-- C7 -/
theorem restart_reports (env : Env) (cf cn tf tn : String)
    (hroot : env.euid = 0)
    (hf : lookupFile env.files cf = some tf)
    (hn : lookupFile env.files cn = some tn) :
    (env.cmdExit ["systemctl", "restart", "frr"] ≠ 0 →
       (frrRun env cf .restart).outcome = .died 1
       ∧ (frrRun env cf .restart).err = ["ERROR: Command failed: systemctl restart frr"]
       ∧ (frrRun env cf .restart).cmds = [["systemctl", "restart", "frr"]])
    ∧ (env.cmdExit ["systemctl", "restart", "frr"] = 0 →
       (frrRun env cf .restart).outcome = .ok
       ∧ (frrRun env cf .restart).out = ["FRR restarted successfully"]
       ∧ (frrRun env cf .restart).err = []
       ∧ (frrRun env cf .restart).cmds = [["systemctl", "restart", "frr"]])
    ∧ (env.cmdExit ["systemctl", "restart", "nftables"] ≠ 0 →
       (nftRun env cn .restart).outcome = .died 1
       ∧ (nftRun env cn .restart).err = ["ERROR: Command failed: systemctl restart nftables"]
       ∧ (nftRun env cn .restart).cmds = [["systemctl", "restart", "nftables"]])
    ∧ (env.cmdExit ["systemctl", "restart", "nftables"] = 0 →
       (nftRun env cn .restart).outcome = .ok
       ∧ (nftRun env cn .restart).out = ["nftables restarted successfully"]
       ∧ (nftRun env cn .restart).err = []
       ∧ (nftRun env cn .restart).cmds = [["systemctl", "restart", "nftables"]]) := by
  refine ⟨fun hc => ?_, fun hc => ?_, fun hc => ?_, fun hc => ?_⟩ <;>
    simp [frrRun, nftRun, hroot, hf, hn, hc, dieAfter, emptyTrace] <;> rfl

/-- witness C7 -/
theorem restart_reports_witness :
    ((0 : Nat) = 0) ∧
    (frrRun ⟨0, [("/etc/frr/frr.conf", "x"), ("/etc/nftables.conf", "y")], fun _ => 0⟩
        "/etc/frr/frr.conf" .restart).outcome = Outcome.ok
    ∧ (frrRun ⟨0, [("/etc/frr/frr.conf", "x"), ("/etc/nftables.conf", "y")], fun _ => 0⟩
        "/etc/frr/frr.conf" .restart).out = ["FRR restarted successfully"] :=
  ⟨rfl,
   ((restart_reports ⟨0, [("/etc/frr/frr.conf", "x"), ("/etc/nftables.conf", "y")], fun _ => 0⟩
      "/etc/frr/frr.conf" "/etc/nftables.conf" "x" "y"
      rfl (by decide) (by decide)).2.1 rfl).1,
   ((restart_reports ⟨0, [("/etc/frr/frr.conf", "x"), ("/etc/nftables.conf", "y")], fun _ => 0⟩
      "/etc/frr/frr.conf" "/etc/nftables.conf" "x" "y"
      rfl (by decide) (by decide)).2.1 rfl).2.1⟩

/-- C9 -/
theorem render_deterministic (env1 env2 : Env) (cf cn : String)
    (h1 : env1.euid = 0) (h2 : env2.euid = 0)
    (fargs : FrrSetArgs) (nargs : NFTablesSetArgs) :
    (frrRun env1 cf (.set fargs)).writes = (frrRun env2 cf (.set fargs)).writes
    ∧ (frrRun env1 cf (.set fargs)).writes = [(cf, frrSetText fargs)]
    ∧ (nftRun env1 cn (.set nargs)).writes = (nftRun env2 cn (.set nargs)).writes
    ∧ (nftRun env1 cn (.set nargs)).writes = [(cn, nftSetText nargs)] := by
  refine ⟨?_, ?_, ?_, ?_⟩ <;> simp [frrRun, nftRun, h1, h2]

/-- witness C9 -/
theorem render_deterministic_witness :
    ((0 : Nat) = 0) ∧
    (frrRun ⟨0, [], fun _ => 0⟩ "/etc/frr/frr.conf"
        (.set ⟨["10.1.1.1/24"], "192.168.1.100/24", "192.168.1.1"⟩)).writes
      = (frrRun ⟨0, [("/etc/frr/frr.conf", "old")], fun _ => 1⟩ "/etc/frr/frr.conf"
          (.set ⟨["10.1.1.1/24"], "192.168.1.100/24", "192.168.1.1"⟩)).writes :=
  ⟨rfl,
   (render_deterministic ⟨0, [], fun _ => 0⟩ ⟨0, [("/etc/frr/frr.conf", "old")], fun _ => 1⟩
      "/etc/frr/frr.conf" "/etc/nftables.conf" rfl rfl
      ⟨["10.1.1.1/24"], "192.168.1.100/24", "192.168.1.1"⟩
      ⟨"10.1.1.1", "192.168.1.0/24"⟩).1⟩
